import Mathlib

/-!
Verification of the badr-vendors microservice against its design notes.

The development shallowly embeds the request handlers of vendor.js together
with the table constraints of schema.sql: tables become lists of rows, UUIDs
become naturals, SQL timestamps become naturals, and each Express handler
becomes a pure function from the incoming fields and the current table
contents to an HTTP status plus the new table contents.  The catch branches
of vendor.js answer 500, so a storage-constraint violation surfaces here as
status 500 with an unchanged table.  Webhook fan-out (notifyConsumers) never
changes a table or a status and is omitted.
-/

namespace Badr

/-- Row and user identifiers; UUIDs are modelled as naturals. -/
abbrev Id := Nat

/-- Principal decoded by the vendor.js JWT middleware (lines 40-53): the
token payload carries an id and a list of role strings. -/
structure AuthUser where
  id : Id
  roles : List String
deriving DecidableEq

/-- Principal attached by the middleware auth module (validateToken): a
single role string, read by requireRole as req.user.role. -/
structure MWUser where
  uid : Id
  role : String
deriving DecidableEq

/-- Argument handed to a role gate: vendor.js calls checkRole with either a
single string, for example checkRole('vendor'), or an array literal, for
example checkRole(['vendor', 'customer']) on the reply endpoint. -/
inductive RoleArg where
  | one : String → RoleArg
  | many : List String → RoleArg
deriving DecidableEq

/-- JS Array.prototype.includes as invoked by checkRole (vendor.js line 45):
user.roles.includes(requiredRole).  includes compares by SameValueZero;
when the argument is an array literal it is a fresh object and therefore
reference-distinct from every string element of user.roles, so the call
returns false on every roles list. -/
def jsIncludes (roles : List String) (arg : RoleArg) : Bool :=
  match arg with
  | RoleArg.one s => roles.contains s
  | RoleArg.many _ => false

/-- Outcome of a gate middleware: denied with an HTTP status, or pass. -/
inductive GateResult where
  | denied : Nat → GateResult
  | passed : GateResult
deriving DecidableEq

/-- vendor.js lines 40-53, checkRole(requiredRole): a missing token answers
401, a token whose roles array does not include requiredRole answers 403,
otherwise the request passes through to the handler. -/
def checkRole (requiredRole : RoleArg) (token : Option AuthUser) : GateResult :=
  match token with
  | none => GateResult.denied 401
  | some user =>
    if jsIncludes user.roles requiredRole then GateResult.passed
    else GateResult.denied 403

/-- requireRole from the middleware auth module (source lines 725-759): a
single role is wrapped into a one-element array, an array argument is kept,
and the request is denied with 403 exactly when the principal's single role
string is not an element of that array. -/
def requireRole (requiredRoles : RoleArg) (user : Option MWUser) : GateResult :=
  match user with
  | none => GateResult.denied 401
  | some u =>
    let roles := match requiredRoles with
      | RoleArg.one s => [s]
      | RoleArg.many l => l
    if roles.contains u.role then GateResult.passed
    else GateResult.denied 403

/-- vendors row (schema.sql 59-86) restricted to the columns the verified
endpoints touch; registration_status carries no NOT NULL in the schema, so
it is an Option with a CHECK over four allowed strings. -/
structure Vendor where
  id : Id
  user_id : Id
  name : String
  registration_status : Option String
deriving DecidableEq

/-- vendor_branches row (schema.sql 89-110), relevant columns. -/
structure Branch where
  id : Id
  vendor_id : Id
  name : String
  address : String
deriving DecidableEq

/-- menu_items row (schema.sql 129-156), relevant columns; description is
nullable, price is DECIMAL and modelled as an integer. -/
structure MenuItem where
  id : Id
  branch_id : Id
  name : String
  description : Option String
  price : Int
deriving DecidableEq

/-- offers row (schema.sql 159-183), the columns the listing endpoint reads. -/
structure Offer where
  id : Id
  branch_id : Id
  start_date : Nat
  end_date : Nat
deriving DecidableEq

/-- favorites row (schema.sql 190-208). -/
structure Favorite where
  id : Id
  user_id : Id
  branch_id : Option Id
  menu_item_id : Option Id
  offer_id : Option Id
  type : String
deriving DecidableEq

/-- reviews row (schema.sql 211-234); deleted_at is the nullable soft-delete
timestamp the schema provides. -/
structure Review where
  id : Id
  user_id : Id
  branch_id : Option Id
  menu_item_id : Option Id
  offer_id : Option Id
  rating : Int
  comment : Option String
  type : String
  deleted_at : Option Nat
deriving DecidableEq

/-- review_likes row (schema.sql 249-258). -/
structure ReviewLike where
  id : Id
  review_id : Id
  user_id : Id
  is_like : Bool
deriving DecidableEq

/-- schema.sql 72: CHECK (registration_status IN ('pending', 'approved',
'rejected', 'suspended')). -/
def vendorStatusCheck (s : String) : Bool :=
  s == "pending" || s == "approved" || s == "rejected" || s == "suspended"

/-- schema.sql 196: CHECK (type IN ('branch', 'menu_item', 'offer')). -/
def favoriteTypeCheck (t : String) : Bool :=
  t == "branch" || t == "menu_item" || t == "offer"

/-- schema.sql 200-204, constraint single_favorite_reference: the reference
column named by the discriminant is non-null and the two others are null. -/
def favoriteRefCheck (t : String) (branch_id menu_item_id offer_id : Option Id) : Bool :=
  (t == "branch" && branch_id.isSome && menu_item_id.isNone && offer_id.isNone) ||
  (t == "menu_item" && menu_item_id.isSome && branch_id.isNone && offer_id.isNone) ||
  (t == "offer" && offer_id.isSome && branch_id.isNone && menu_item_id.isNone)

/-- schema.sql 220: CHECK (type IN ('branch', 'menu_item', 'offer',
'overall')). -/
def reviewTypeCheck (t : String) : Bool :=
  t == "branch" || t == "menu_item" || t == "offer" || t == "overall"

/-- schema.sql 228-233, constraint single_review_reference; the overall arm
requires branch_id non-null exactly like the branch arm. -/
def reviewRefCheck (t : String) (branch_id menu_item_id offer_id : Option Id) : Bool :=
  (t == "branch" && branch_id.isSome && menu_item_id.isNone && offer_id.isNone) ||
  (t == "menu_item" && menu_item_id.isSome && branch_id.isNone && offer_id.isNone) ||
  (t == "offer" && offer_id.isSome && branch_id.isNone && menu_item_id.isNone) ||
  (t == "overall" && branch_id.isSome && menu_item_id.isNone && offer_id.isNone)

/-- schema.sql 218: CHECK (rating >= 1 AND rating <= 5). -/
def ratingCheck (r : Int) : Bool := decide (1 ≤ r) && decide (r ≤ 5)

/-- HTTP client-error status class: the spec's ValidationError taxonomy
entry maps into this range, while every catch branch of vendor.js answers
500, a server error. -/
def isClientError (n : Nat) : Bool := decide (400 ≤ n) && decide (n < 500)

/-- vendor.js 83-97, PUT /vendors/:vendorId/approve behind checkRole('admin'),
composed with the vendors CHECK of schema.sql 72.  The UPDATE matches rows
by id alone; zero matches answer 404 with an untouched table, a status
value the CHECK rejects aborts the statement and the catch branch answers
500, otherwise every matched row takes the submitted status verbatim and
RETURNING * hands back the first updated row (result.rows[0]). -/
def approveVendor (vendors : List Vendor) (user : AuthUser) (vendorId : Id)
    (status : Option String) : Nat × List Vendor × Option Vendor :=
  if !jsIncludes user.roles (RoleArg.one "admin") then (403, vendors, none)
  else if vendors.any (fun v => v.id == vendorId) then
    if (match status with | none => true | some s => vendorStatusCheck s) then
      let updated := vendors.map fun v =>
        if v.id == vendorId then { v with registration_status := status } else v
      (200, updated, (updated.filter fun v => v.id == vendorId).head?)
    else (500, vendors, none)
  else (404, vendors, none)

/-- vendor.js 100-115, POST /vendors/:vendorId/branches behind
checkRole('vendor'): one SELECT filters vendors on id, owning user and
status 'approved'; an empty result answers 403 and nothing is written,
otherwise the branch row is inserted and returned. -/
def postBranch (vendors : List Vendor) (branches : List Branch) (user : AuthUser)
    (vendorId : Id) (name address : String) (newId : Id) : Nat × List Branch :=
  if !jsIncludes user.roles (RoleArg.one "vendor") then (403, branches)
  else
    let vendorCheck := vendors.filter fun v =>
      v.id == vendorId && v.user_id == user.id && v.registration_status == some "approved"
    if vendorCheck.length == 0 then (403, branches)
    else (200, branches ++ [{ id := newId, vendor_id := vendorId, name := name, address := address }])

/-- Postgres LIKE pattern matching over explicit character lists: a percent
matches any sequence, which is rendered as a match of the pattern rest
against some suffix of the text; an underscore matches one character, a
backslash escapes the following pattern character, any other character
matches itself. -/
def likeMatch : List Char → List Char → Bool
  | [], s => s.isEmpty
  | '%' :: ps, s => s.tails.any fun t => likeMatch ps t
  | '_' :: ps, s =>
    (match s with
     | [] => false
     | _ :: s2 => likeMatch ps s2)
  | '\\' :: ps, s =>
    (match ps, s with
     | q :: ps2, c :: s2 => (c == q) && likeMatch ps2 s2
     | _, _ => false)
  | p :: ps, s =>
    (match s with
     | [] => false
     | c :: s2 => (c == p) && likeMatch ps s2)

/-- Postgres ILIKE: LIKE after lower-casing both operands.  vendor.js builds
the pattern by template interpolation, so the surrounding percents are part
of the pattern list handed in here. -/
def ilike (s : String) (pat : List Char) : Bool :=
  likeMatch (pat.map Char.toLower) (s.toList.map Char.toLower)

/-- Formalisation of the claim's notion of one character list standing at
the front of another; used only to state what the menu search returns. -/
def matchesFront : List Char → List Char → Bool
  | [], _ => true
  | _ :: _, [] => false
  | a :: as, b :: bs => (b == a) && matchesFront as bs

/-- Formalisation of the claim's notion of a contiguous occurrence of one
character list inside another. -/
def occursIn (needle : List Char) : List Char → Bool
  | [] => matchesFront needle []
  | c :: t => matchesFront needle (c :: t) || occursIn needle t

/-- Formalisation of the claim's phrase: the needle is a case-insensitive
substring of the hay. -/
def specCiSubstring (needle hay : String) : Bool :=
  occursIn (needle.toList.map Char.toLower) (hay.toList.map Char.toLower)

/-- Character lists free of the LIKE metacharacters percent, underscore and
backslash. -/
def likePlain (cs : List Char) : Bool :=
  cs.all fun c => !(c == '%' || c == '_' || c == '\\')

/-- vendor.js 159-182, GET /branches/:branchId/menu: the SQL text is built
incrementally; an empty search string is skipped by the JS truthiness test,
price clauses are appended when the corresponding query parameter is
present, and a null description makes its ILIKE disjunct fall away because
SQL null is not true. -/
def listMenu (items : List MenuItem) (branchId : Id) (search : Option String)
    (minPrice maxPrice : Option Int) : List MenuItem :=
  items.filter fun it =>
    it.branch_id == branchId &&
    (match search with
     | none => true
     | some s =>
       if s == "" then true
       else
         ilike it.name ('%' :: s.toList ++ ['%']) ||
           (match it.description with
            | none => false
            | some d => ilike d ('%' :: s.toList ++ ['%']))) &&
    (match minPrice with
     | none => true
     | some p => decide (p ≤ it.price)) &&
    (match maxPrice with
     | none => true
     | some p => decide (it.price ≤ p))

/-- vendor.js 185-193, GET /branches/:branchId/offers: one SELECT filtered
on branch_id and end_date > NOW(); timestamps are naturals and now is a
parameter. -/
def listOffers (offers : List Offer) (branchId : Id) (now : Nat) : List Offer :=
  offers.filter fun o => o.branch_id == branchId && decide (now < o.end_date)

/-- vendor.js 196-207, POST /favorites behind checkRole('customer'),
composed with the favorites table constraints of schema.sql 190-208: the
handler runs no validation of its own and goes straight to INSERT; the NOT
NULL discriminant, the type CHECK and single_favorite_reference decide
acceptance, and any constraint violation lands in the catch branch as 500.
The unique_favorite constraint never fires because every row carries nulls
in two reference columns and nulls compare distinct under UNIQUE; foreign
keys are not modelled since no claim touches them. -/
def postFavorites (favorites : List Favorite) (user : AuthUser)
    (branch_id menu_item_id offer_id : Option Id) (type : Option String)
    (newId : Id) : Nat × List Favorite :=
  if !jsIncludes user.roles (RoleArg.one "customer") then (403, favorites)
  else
    match type with
    | none => (500, favorites)
    | some t =>
      if favoriteTypeCheck t && favoriteRefCheck t branch_id menu_item_id offer_id then
        (200, favorites ++ [{ id := newId, user_id := user.id, branch_id := branch_id,
                              menu_item_id := menu_item_id, offer_id := offer_id, type := t }])
      else (500, favorites)

/-- vendor.js 210-222, POST /reviews behind checkRole('customer'), composed
with the reviews table constraints of schema.sql 211-234: no application
validation, straight INSERT; NOT NULL on rating and type, the rating range
CHECK, the type CHECK and single_review_reference decide acceptance, any
violation answering 500 from the catch branch. -/
def postReviews (reviews : List Review) (user : AuthUser)
    (branch_id menu_item_id offer_id : Option Id) (rating : Option Int)
    (comment : Option String) (type : Option String) (newId : Id) : Nat × List Review :=
  if !jsIncludes user.roles (RoleArg.one "customer") then (403, reviews)
  else
    match rating, type with
    | some r, some t =>
      if ratingCheck r && reviewTypeCheck t && reviewRefCheck t branch_id menu_item_id offer_id then
        (200, reviews ++ [{ id := newId, user_id := user.id, branch_id := branch_id,
                            menu_item_id := menu_item_id, offer_id := offer_id, rating := r,
                            comment := comment, type := t, deleted_at := none }])
      else (500, reviews)
    | _, _ => (500, reviews)

/-- vendor.js 225-239, PUT /reviews/:reviewId behind checkRole('customer'):
one atomic UPDATE filtered on id and user_id; zero matched rows answer 404
with the message Review not found or unauthorized, leaving the table
untouched; a matched row given an out-of-range or missing rating trips the
rating CHECK or NOT NULL and answers 500; otherwise rating and comment of
the matched row are overwritten. -/
def putReview (reviews : List Review) (user : AuthUser) (reviewId : Id)
    (rating : Option Int) (comment : Option String) : Nat × List Review :=
  if !jsIncludes user.roles (RoleArg.one "customer") then (403, reviews)
  else if reviews.any fun rv => rv.id == reviewId && rv.user_id == user.id then
    match rating with
    | some r =>
      if ratingCheck r then
        (200, reviews.map fun rv =>
          if rv.id == reviewId && rv.user_id == user.id then
            { rv with rating := r, comment := comment }
          else rv)
      else (500, reviews)
    | none => (500, reviews)
  else (404, reviews)

/-- vendor.js 242-252, DELETE /reviews/:reviewId behind checkRole('customer'):
a plain DELETE filtered on id and user_id; zero matched rows answer 404,
otherwise the matched rows are physically removed from the table. -/
def deleteReview (reviews : List Review) (user : AuthUser) (reviewId : Id) :
    Nat × List Review :=
  if !jsIncludes user.roles (RoleArg.one "customer") then (403, reviews)
  else if reviews.any fun rv => rv.id == reviewId && rv.user_id == user.id then
    (200, reviews.filter fun rv => !(rv.id == reviewId && rv.user_id == user.id))
  else (404, reviews)

/-- vendor.js 280-292, POST /reviews/:reviewId/like behind
checkRole('customer'): INSERT with ON CONFLICT (review_id, user_id) DO
UPDATE SET is_like; a conflicting row keeps its identity and takes the new
boolean, otherwise a fresh row is appended; a missing boolean violates NOT
NULL and answers 500. -/
def postLike (likes : List ReviewLike) (user : AuthUser) (reviewId : Id)
    (is_like : Option Bool) (newId : Id) : Nat × List ReviewLike :=
  if !jsIncludes user.roles (RoleArg.one "customer") then (403, likes)
  else
    match is_like with
    | none => (500, likes)
    | some b =>
      if likes.any fun l => l.review_id == reviewId && l.user_id == user.id then
        (200, likes.map fun l =>
          if l.review_id == reviewId && l.user_id == user.id then { l with is_like := b } else l)
      else
        (200, likes ++ [{ id := newId, review_id := reviewId, user_id := user.id, is_like := b }])

/-- Concrete principals and rows used by witnesses and counterexamples. -/
def demoCustomer : AuthUser := { id := 1, roles := ["customer"] }

def demoVendorUser : AuthUser := { id := 9, roles := ["vendor"] }

def demoAdmin : AuthUser := { id := 3, roles := ["admin"] }

def demoVendor : Vendor :=
  { id := 5, user_id := 9, name := "V", registration_status := some "approved" }

def demoOtherReview : Review :=
  { id := 1, user_id := 2, branch_id := some 4, menu_item_id := none, offer_id := none,
    rating := 4, comment := none, type := "branch", deleted_at := none }

def demoOwnReview : Review :=
  { id := 1, user_id := 1, branch_id := some 4, menu_item_id := none, offer_id := none,
    rating := 4, comment := none, type := "branch", deleted_at := none }

def wildItem : MenuItem :=
  { id := 1, branch_id := 7, name := "abc", description := none, price := 10 }

def demoItem : MenuItem :=
  { id := 2, branch_id := 7, name := "Beef Burger", description := some "classic", price := 95 }

theorem likeMatch_pct (ps s : List Char) :
    likeMatch ('%' :: ps) s = s.tails.any fun t => likeMatch ps t := by
  rw [likeMatch.eq_def]
  split
  · rename_i heq; exact absurd heq (List.cons_ne_nil _ _)
  · rename_i heq; injection heq with h1 h2; subst h2; rfl
  · rename_i heq; injection heq with h1 h2; exact absurd h1 (by decide)
  · rename_i heq; injection heq with h1 h2; exact absurd h1 (by decide)
  · rename_i hne1 hne2 hne3 heq
    injection heq with h1 h2
    exact absurd h1.symm hne1

theorem likeMatch_plainChar (c : Char) (hc1 : c ≠ '%') (hc2 : c ≠ '_') (hc3 : c ≠ '\\')
    (ps s : List Char) :
    likeMatch (c :: ps) s =
      (match s with
       | [] => false
       | b :: s2 => (b == c) && likeMatch ps s2) := by
  rw [likeMatch.eq_def]
  split
  · rename_i heq; exact absurd heq (List.cons_ne_nil _ _)
  · rename_i heq; injection heq with h1 h2; exact absurd h1 hc1
  · rename_i heq; injection heq with h1 h2; exact absurd h1 hc2
  · rename_i heq; injection heq with h1 h2; exact absurd h1 hc3
  · rename_i hne1 hne2 hne3 heq
    injection heq with h1 h2
    subst h1; subst h2; rfl

theorem tails_any_isEmpty (hay : List Char) : (hay.tails.any fun t => t.isEmpty) = true := by
  induction hay with
  | nil => rfl
  | cons c t ih => simp only [List.tails_cons, List.any_cons, ih, Bool.or_true]

theorem likeMatch_lit (needle : List Char) (h : likePlain needle = true) :
    ∀ hay, likeMatch (needle ++ ['%']) hay = matchesFront needle hay := by
  induction needle with
  | nil =>
    intro hay
    rw [List.nil_append, likeMatch_pct]
    calc (hay.tails.any fun t => likeMatch [] t)
        = (hay.tails.any fun t => t.isEmpty) := by
          simp only [likeMatch]
      _ = true := tails_any_isEmpty hay
      _ = matchesFront [] hay := rfl
  | cons c cs ih =>
    intro hay
    simp only [likePlain, List.all_cons, Bool.and_eq_true, Bool.not_eq_true',
      Bool.or_eq_false_iff] at h
    obtain ⟨⟨⟨e1, e2⟩, e3⟩, hrest⟩ := h
    have hcs : likePlain cs = true := by
      simp only [likePlain]; exact hrest
    have n1 : c ≠ '%' := by simpa using e1
    have n2 : c ≠ '_' := by simpa using e2
    have n3 : c ≠ '\\' := by simpa using e3
    rw [List.cons_append, likeMatch_plainChar c n1 n2 n3]
    cases hay with
    | nil => rfl
    | cons b bs =>
      show ((b == c) && likeMatch (cs ++ ['%']) bs) = matchesFront (c :: cs) (b :: bs)
      rw [ih hcs bs]
      rfl

theorem occursIn_eq_tails (needle hay : List Char) :
    occursIn needle hay = (hay.tails.any fun t => matchesFront needle t) := by
  induction hay with
  | nil => simp [occursIn]
  | cons c t ih => simp [occursIn, ih]

theorem likeMatch_wrap (needle : List Char) (h : likePlain needle = true) (hay : List Char) :
    likeMatch ('%' :: (needle ++ ['%'])) hay = occursIn needle hay := by
  rw [likeMatch_pct, occursIn_eq_tails]
  have e : ∀ t, likeMatch (needle ++ ['%']) t = matchesFront needle t := likeMatch_lit needle h
  simp only [e]

theorem toLower_eq (c : Char) :
    Char.toLower c = if c.toNat ≥ 65 ∧ c.toNat ≤ 90 then Char.ofNat (c.toNat + 32) else c := rfl

theorem toLower_meta (c : Char) :
    ((Char.toLower c == '%') || (Char.toLower c == '_') || (Char.toLower c == '\\'))
      = ((c == '%') || (c == '_') || (c == '\\')) := by
  rw [toLower_eq]
  split
  case isTrue h =>
    obtain ⟨h1, h2⟩ := h
    have e1 : (c == '%') = false := by
      simp only [beq_eq_false_iff_ne]; intro he; subst he; simp at h1
    have e2 : (c == '_') = false := by
      simp only [beq_eq_false_iff_ne]; intro he; subst he; simp at h2
    have e3 : (c == '\\') = false := by
      simp only [beq_eq_false_iff_ne]; intro he; subst he; simp at h2
    rw [e1, e2, e3]
    have key : ∀ m, 97 ≤ m → m ≤ 122 →
        ((Char.ofNat m == '%') || (Char.ofNat m == '_') || (Char.ofNat m == '\\')) = false := by
      intro m hm1 hm2
      interval_cases m <;> decide
    rw [key (c.toNat + 32) (by omega) (by omega)]
    rfl
  case isFalse h => rfl

theorem likePlain_toLower (cs : List Char) :
    likePlain (cs.map Char.toLower) = likePlain cs := by
  induction cs with
  | nil => rfl
  | cons c t ih =>
    simp only [likePlain, List.map_cons, List.all_cons] at *
    rw [toLower_meta, ih]

theorem ilike_wrap (s : String) (hplain : likePlain s.toList = true) (hay : String) :
    ilike hay ('%' :: s.toList ++ ['%']) = specCiSubstring s hay := by
  unfold ilike specCiSubstring
  have hmap : (('%' :: s.toList ++ ['%']).map Char.toLower)
      = '%' :: (s.toList.map Char.toLower) ++ ['%'] := by
    simp [List.map_cons, List.map_append]
  rw [hmap]
  exact likeMatch_wrap _ (by rw [likePlain_toLower]; exact hplain) _

/-- C9, counterexample to the claim as stated: the menu search hands the
user-supplied term to ILIKE without escaping, so LIKE metacharacters stay
active.  Branch 7 holds the single item named abc with no description;
searching for the term a_c returns that item even though a_c is not a
case-insensitive substring of its name and it has no description, because
the underscore in the pattern matched the letter b. -/
theorem listMenu_wildcard_counterexample :
    listMenu [wildItem] 7 (some "a_c") none none = [wildItem] ∧
    specCiSubstring "a_c" wildItem.name = false ∧
    wildItem.description = none := by decide

/-- C9, amended: for a public menu-listing query whose search term is free
of the LIKE metacharacters percent, underscore and backslash (and is
nonempty, since the JS truthiness test drops an empty term), the returned
items are exactly the items of the requested branch whose name or
description contains the term as a case-insensitive substring and whose
price lies inclusively between the supplied bounds; nothing satisfying the
filters is omitted. -/
theorem listMenu_filters_plain (items : List MenuItem) (branchId : Id) (s : String)
    (minP maxP : Option Int) (it : MenuItem)
    (hs : (s == "") = false)
    (hplain : likePlain s.toList = true) :
    it ∈ listMenu items branchId (some s) minP maxP ↔
      it ∈ items ∧ it.branch_id = branchId ∧
      (specCiSubstring s it.name = true ∨
        ∃ d, it.description = some d ∧ specCiSubstring s d = true) ∧
      (∀ p, minP = some p → p ≤ it.price) ∧
      (∀ p, maxP = some p → it.price ≤ p) := by
  simp only [listMenu, List.mem_filter, hs, Bool.false_eq_true, if_false,
    ilike_wrap s hplain, Bool.and_eq_true, Bool.or_eq_true, beq_iff_eq,
    decide_eq_true_eq]
  cases hd : it.description <;> cases minP <;> cases maxP <;>
    simp only [hd, Option.some.injEq, decide_eq_true_eq] <;>
    aesop

theorem filter_length_beq_zero {α} (p : α → Bool) (l : List α) :
    ((l.filter p).length == 0) = (!l.any p) := by
  induction l with
  | nil => rfl
  | cons a t ih =>
    by_cases h : p a = true <;> simp [List.filter_cons, List.any_cons, h, ih]

/-- C2: a branch-creation request by an authenticated vendor-role user
creates the branch exactly when a vendor row with the requested id is owned
by the requester and carries registration_status approved; in every other
case, the vendor being absent included, the handler answers 403 Forbidden
and the branch table is unchanged. -/
theorem postBranch_authz (vendors : List Vendor) (branches : List Branch) (user : AuthUser)
    (vendorId : Id) (name address : String) (newId : Id)
    (hrole : jsIncludes user.roles (RoleArg.one "vendor") = true) :
    ((∃ v ∈ vendors, v.id = vendorId ∧ v.user_id = user.id ∧
        v.registration_status = some "approved") →
      postBranch vendors branches user vendorId name address newId =
        (200, branches ++ [{ id := newId, vendor_id := vendorId, name := name, address := address }]))
    ∧ ((¬ ∃ v ∈ vendors, v.id = vendorId ∧ v.user_id = user.id ∧
        v.registration_status = some "approved") →
      postBranch vendors branches user vendorId name address newId = (403, branches)) := by
  have hiff : (vendors.any fun v =>
      v.id == vendorId && v.user_id == user.id && v.registration_status == some "approved") = true
      ↔ ∃ v ∈ vendors, v.id = vendorId ∧ v.user_id = user.id ∧
          v.registration_status = some "approved" := by
    simp [List.any_eq_true, Bool.and_eq_true, beq_iff_eq, and_assoc]
  constructor
  · intro hex
    have hany := hiff.mpr hex
    simp [postBranch, hrole, filter_length_beq_zero, hany]
  · intro hex
    have hany : (vendors.any fun v =>
        v.id == vendorId && v.user_id == user.id && v.registration_status == some "approved") = false := by
      rw [← Bool.not_eq_true]
      intro h; exact hex (hiff.mp h)
    simp [postBranch, hrole, filter_length_beq_zero, hany]

/-- C2, witness: an approved vendor owned by the requesting principal gets
its branch created and appended. -/
theorem postBranch_authz_witness :
    jsIncludes demoVendorUser.roles (RoleArg.one "vendor") = true ∧
    postBranch [demoVendor] [] demoVendorUser 5 "Main" "Addr" 11 =
      (200, [{ id := 11, vendor_id := 5, name := "Main", address := "Addr" }]) :=
  ⟨by decide,
    (postBranch_authz [demoVendor] [] demoVendorUser 5 "Main" "Addr" 11 (by decide)).1
      ⟨demoVendor, List.mem_singleton.mpr rfl, rfl, rfl, rfl⟩⟩

/-- C10: the admin approve endpoint applies whatever status string the body
carries, as long as the storage CHECK accepts it, pending and suspended
included: every row with the requested id takes that status verbatim and
the updated row is returned; when no vendor with the id exists the answer
is 404 and the table is untouched. -/
theorem approveVendor_spec (vendors : List Vendor) (user : AuthUser) (vendorId : Id)
    (s : String)
    (hadmin : jsIncludes user.roles (RoleArg.one "admin") = true)
    (hok : vendorStatusCheck s = true) :
    ((∃ v ∈ vendors, v.id = vendorId) →
      (approveVendor vendors user vendorId (some s)).1 = 200 ∧
      (∀ v ∈ (approveVendor vendors user vendorId (some s)).2.1,
        v.id = vendorId → v.registration_status = some s) ∧
      (∃ v, (approveVendor vendors user vendorId (some s)).2.2 = some v ∧
        v.id = vendorId ∧ v.registration_status = some s))
    ∧ ((¬ ∃ v ∈ vendors, v.id = vendorId) →
      approveVendor vendors user vendorId (some s) = (404, vendors, none)) := by
  have hup : ∀ w ∈ (vendors.map fun v =>
      if v.id == vendorId then { v with registration_status := some s } else v),
      w.id = vendorId → w.registration_status = some s := by
    intro w hw hwid
    rw [List.mem_map] at hw
    obtain ⟨v, hv, rfl⟩ := hw
    by_cases hvid : (v.id == vendorId) = true
    · simp [hvid]
    · rw [if_neg hvid] at hwid ⊢
      exact absurd (by simpa using hwid) (by simpa using hvid)
  constructor
  · intro hex
    obtain ⟨v, hv, hvid⟩ := hex
    have hany : (vendors.any fun v => v.id == vendorId) = true := by
      simp only [List.any_eq_true]
      exact ⟨v, hv, by simpa using hvid⟩
    have heval : approveVendor vendors user vendorId (some s) =
        (200,
          vendors.map fun v =>
            if v.id == vendorId then { v with registration_status := some s } else v,
          ((vendors.map fun v =>
            if v.id == vendorId then { v with registration_status := some s } else v).filter
              fun v => v.id == vendorId).head?) := by
      unfold approveVendor
      rw [hadmin, hany]
      simp [hok]
    rw [heval]
    refine ⟨rfl, hup, ?_⟩
    have hmemmap : ({ v with registration_status := some s } : Vendor) ∈
        (vendors.map fun v =>
          if v.id == vendorId then { v with registration_status := some s } else v) := by
      rw [List.mem_map]
      exact ⟨v, hv, by simp [hvid]⟩
    have hmemf : ({ v with registration_status := some s } : Vendor) ∈
        ((vendors.map fun v =>
          if v.id == vendorId then { v with registration_status := some s } else v).filter
            fun v => v.id == vendorId) := by
      rw [List.mem_filter]
      exact ⟨hmemmap, by simpa using hvid⟩
    obtain ⟨h, t, heqf⟩ := List.exists_cons_of_ne_nil (List.ne_nil_of_mem hmemf)
    have hh : h ∈ ((vendors.map fun v =>
        if v.id == vendorId then { v with registration_status := some s } else v).filter
          fun v => v.id == vendorId) := by
      rw [heqf]
      exact List.mem_cons_self h t
    rw [List.mem_filter] at hh
    have hhid : h.id = vendorId := by simpa using hh.2
    refine ⟨h, ?_, hhid, hup h hh.1 hhid⟩
    rw [heqf]
    rfl
  · intro hex
    have hany : (vendors.any fun v => v.id == vendorId) = false := by
      rw [← Bool.not_eq_true]
      intro h
      rw [List.any_eq_true] at h
      obtain ⟨v, hv, hvid⟩ := h
      exact hex ⟨v, hv, by simpa using hvid⟩
    simp [approveVendor, hadmin, hany]

/-- C10, witness: an admin moves an approved vendor to suspended, a value
outside the approve-or-reject pair named in the route comment. -/
theorem approveVendor_spec_witness :
    jsIncludes demoAdmin.roles (RoleArg.one "admin") = true ∧
    vendorStatusCheck "suspended" = true ∧
    ((approveVendor [demoVendor] demoAdmin 5 (some "suspended")).1 = 200 ∧
     (∀ v ∈ (approveVendor [demoVendor] demoAdmin 5 (some "suspended")).2.1,
        v.id = 5 → v.registration_status = some "suspended") ∧
     (∃ v, (approveVendor [demoVendor] demoAdmin 5 (some "suspended")).2.2 = some v ∧
        v.id = 5 ∧ v.registration_status = some "suspended")) :=
  ⟨by decide, by decide,
    (approveVendor_spec [demoVendor] demoAdmin 5 "suspended" (by decide) (by decide)).1
      ⟨demoVendor, List.mem_singleton.mpr rfl, rfl⟩⟩

/-- C3, code bug: the reply endpoint is wired through
checkRole(['vendor', 'customer']), but checkRole tests membership with
user.roles.includes(requiredRole); handed an array literal, includes
compares it by reference against the string elements and never succeeds, so
every principal is denied with 403, vendors and customers included.  The
repository's own middleware requireRole (source lines 725-759) implements
the intended set semantics and accepts those same principals, which shows
the claim matches the intent and vendor.js line 45 is the slip. -/
theorem checkRole_array_gate_bug :
    checkRole (RoleArg.many ["vendor", "customer"]) (some { id := 7, roles := ["vendor"] }) =
      GateResult.denied 403 ∧
    checkRole (RoleArg.many ["vendor", "customer"]) (some { id := 8, roles := ["customer"] }) =
      GateResult.denied 403 ∧
    requireRole (RoleArg.many ["vendor", "customer"]) (some { uid := 7, role := "vendor" }) =
      GateResult.passed ∧
    requireRole (RoleArg.many ["vendor", "customer"]) (some { uid := 8, role := "customer" }) =
      GateResult.passed := by decide

theorem filter_update_comm (reviewId uid : Id) (b : Bool) (ls : List ReviewLike) :
    ((ls.map fun l => if l.review_id == reviewId && l.user_id == uid then { l with is_like := b } else l).filter
      fun l => l.review_id == reviewId && l.user_id == uid)
    = ((ls.filter fun l => l.review_id == reviewId && l.user_id == uid).map
        fun l => if l.review_id == reviewId && l.user_id == uid then { l with is_like := b } else l) := by
  induction ls with
  | nil => rfl
  | cons a t ih =>
    by_cases hk : (a.review_id == reviewId && a.user_id == uid) = true
    · simp only [List.map_cons, List.filter_cons, hk, eq_self_iff_true, if_true, ite_true, ih]
    · rw [Bool.not_eq_true] at hk
      simp only [List.map_cons, List.filter_cons, hk, Bool.false_eq_true, if_false, ite_false, ih]

theorem postLike_single (likes : List ReviewLike) (user : AuthUser) (reviewId : Id)
    (b : Bool) (newId : Id)
    (hcust : jsIncludes user.roles (RoleArg.one "customer") = true)
    (huniq : ((likes.filter fun l => l.review_id == reviewId && l.user_id == user.id).length) ≤ 1) :
    (postLike likes user reviewId (some b) newId).1 = 200 ∧
    ∃ i, ((postLike likes user reviewId (some b) newId).2.filter
        fun l => l.review_id == reviewId && l.user_id == user.id) =
      [{ id := i, review_id := reviewId, user_id := user.id, is_like := b }] := by
  unfold postLike
  rw [hcust]
  by_cases hany : (likes.any fun l => l.review_id == reviewId && l.user_id == user.id) = true
  · simp only [Bool.not_true, Bool.false_eq_true, if_false, hany, if_true]
    refine ⟨trivial, ?_⟩
    have hlen1 : ((likes.filter fun l => l.review_id == reviewId && l.user_id == user.id).length) = 1 := by
      rw [List.any_eq_true] at hany
      obtain ⟨x, hx, hkx⟩ := hany
      have hxf : x ∈ likes.filter fun l => l.review_id == reviewId && l.user_id == user.id :=
        List.mem_filter.mpr ⟨hx, hkx⟩
      have hpos : 0 < ((likes.filter fun l => l.review_id == reviewId && l.user_id == user.id).length) :=
        List.length_pos.mpr (List.ne_nil_of_mem hxf)
      omega
    obtain ⟨x, hxeq⟩ := List.length_eq_one.mp hlen1
    have hxmem : x ∈ likes.filter fun l => l.review_id == reviewId && l.user_id == user.id := by
      rw [hxeq]; exact List.mem_cons_self x []
    have hkx : (x.review_id == reviewId && x.user_id == user.id) = true :=
      (List.mem_filter.mp hxmem).2
    refine ⟨x.id, ?_⟩
    rw [filter_update_comm, hxeq]
    simp only [List.map_cons, List.map_nil, hkx, if_true, ite_true]
    obtain ⟨xid, xrev, xuid, xlike⟩ := x
    simp only [Bool.and_eq_true, beq_iff_eq] at hkx
    obtain ⟨h1, h2⟩ := hkx
    subst h1
    subst h2
    rfl
  · rw [Bool.not_eq_true] at hany
    simp only [Bool.not_true, Bool.false_eq_true, if_false, hany, if_true]
    refine ⟨trivial, newId, ?_⟩
    have hnil : (likes.filter fun l => l.review_id == reviewId && l.user_id == user.id) = [] := by
      rw [List.filter_eq_nil_iff]
      intro a ha hk
      rw [← Bool.not_eq_true] at hany
      exact hany (List.any_eq_true.mpr ⟨a, ha, hk⟩)
    rw [List.filter_append, hnil, List.nil_append]
    simp

/-- C4: starting from a table with at most one like row for the pair, two
consecutive like calls by the same user on the same review, first with one
boolean and then with a different one, both answer 200, and the table is
left with exactly one row for the pair whose is_like equals the second
boolean: the second call overwrites instead of erroring or duplicating. -/
theorem postLike_upsert (likes : List ReviewLike) (user : AuthUser) (reviewId : Id)
    (v1 v2 : Bool) (id1 id2 : Id)
    (hcust : jsIncludes user.roles (RoleArg.one "customer") = true)
    (huniq : ((likes.filter fun l => l.review_id == reviewId && l.user_id == user.id).length) ≤ 1) :
    (postLike likes user reviewId (some v1) id1).1 = 200 ∧
    (postLike (postLike likes user reviewId (some v1) id1).2 user reviewId (some v2) id2).1 = 200 ∧
    ∃ i, (((postLike (postLike likes user reviewId (some v1) id1).2 user reviewId (some v2) id2).2).filter
        fun l => l.review_id == reviewId && l.user_id == user.id) =
      [{ id := i, review_id := reviewId, user_id := user.id, is_like := v2 }] := by
  obtain ⟨hst1, i1, hfil1⟩ := postLike_single likes user reviewId v1 id1 hcust huniq
  have huniq2 : (((postLike likes user reviewId (some v1) id1).2.filter
      fun l => l.review_id == reviewId && l.user_id == user.id).length) ≤ 1 := by
    rw [hfil1]
    exact le_refl 1
  obtain ⟨hst2, i2, hfil2⟩ :=
    postLike_single (postLike likes user reviewId (some v1) id1).2 user reviewId v2 id2 hcust huniq2
  exact ⟨hst1, hst2, i2, hfil2⟩

/-- C4, witness: a like followed by a dislike on review 4 leaves one row
holding false. -/
theorem postLike_upsert_witness :
    jsIncludes demoCustomer.roles (RoleArg.one "customer") = true ∧
    (([] : List ReviewLike).filter
      fun l => l.review_id == 4 && l.user_id == demoCustomer.id).length ≤ 1 ∧
    ((postLike [] demoCustomer 4 (some true) 21).1 = 200 ∧
     (postLike (postLike [] demoCustomer 4 (some true) 21).2 demoCustomer 4 (some false) 22).1 = 200 ∧
     ∃ i, (((postLike (postLike [] demoCustomer 4 (some true) 21).2 demoCustomer 4 (some false) 22).2).filter
        fun l => l.review_id == 4 && l.user_id == demoCustomer.id) =
      [{ id := i, review_id := 4, user_id := demoCustomer.id, is_like := false }]) :=
  ⟨by decide, by decide,
    postLike_upsert [] demoCustomer 4 true false 21 22 (by decide) (by decide)⟩

/-- C5, counterexample to the claim as stated: review 1 exists and belongs
to user 2, yet when user 1 updates or deletes it the handlers answer 404,
because the single UPDATE and DELETE statements filter on id and user_id
together and cannot tell a missing row from a foreign one; the claim
demands the distinct answer 403 Forbidden here. -/
theorem putReview_notfound_counterexample :
    (∃ rv ∈ [demoOtherReview], rv.id = 1) ∧
    (∀ rv ∈ [demoOtherReview], rv.id = 1 → rv.user_id ≠ demoCustomer.id) ∧
    putReview [demoOtherReview] demoCustomer 1 (some 3) none = (404, [demoOtherReview]) ∧
    deleteReview [demoOtherReview] demoCustomer 1 = (404, [demoOtherReview]) ∧
    (404 : Nat) ≠ 403 := by decide

/-- C5, amended: when no stored review carries both the requested id and
the requester as author, whether the review is absent altogether or
belongs to someone else, review update and delete answer 404 NotFound and
leave the table unchanged; the code never produces the Forbidden arm for
these endpoints. -/
theorem review_mutation_notfound (reviews : List Review) (user : AuthUser) (reviewId : Id)
    (rating : Option Int) (comment : Option String)
    (hcust : jsIncludes user.roles (RoleArg.one "customer") = true)
    (hnone : ∀ rv ∈ reviews, ¬(rv.id = reviewId ∧ rv.user_id = user.id)) :
    putReview reviews user reviewId rating comment = (404, reviews) ∧
    deleteReview reviews user reviewId = (404, reviews) := by
  have hany : (reviews.any fun rv => rv.id == reviewId && rv.user_id == user.id) = false := by
    rw [← Bool.not_eq_true]
    intro h
    rw [List.any_eq_true] at h
    obtain ⟨rv, hrv, hk⟩ := h
    simp only [Bool.and_eq_true, beq_iff_eq] at hk
    exact hnone rv hrv hk
  constructor
  · simp [putReview, hcust, hany]
  · simp [deleteReview, hcust, hany]

/-- C5, witness: the amended theorem applied to the foreign review of the
counterexample. -/
theorem review_mutation_notfound_witness :
    jsIncludes demoCustomer.roles (RoleArg.one "customer") = true ∧
    (∀ rv ∈ [demoOtherReview], ¬(rv.id = 1 ∧ rv.user_id = demoCustomer.id)) ∧
    (putReview [demoOtherReview] demoCustomer 1 (some 3) none = (404, [demoOtherReview]) ∧
     deleteReview [demoOtherReview] demoCustomer 1 = (404, [demoOtherReview])) :=
  ⟨by decide, by decide,
    review_mutation_notfound [demoOtherReview] demoCustomer 1 (some 3) none
      (by decide) (by decide)⟩

/-- C7, counterexample to the claim as stated: user 1 deletes their own
review 1; the handler answers 200 and the reviews table is left empty, so
no row with that id is retained carrying a deleted_at timestamp — the
DELETE statement removes the row physically. -/
theorem deleteReview_physical_counterexample :
    deleteReview [demoOwnReview] demoCustomer 1 = (200, ([] : List Review)) ∧
    ¬ ∃ rv ∈ (deleteReview [demoOwnReview] demoCustomer 1).2, rv.id = 1 := by decide

/-- C7, amended: a successful review delete by the authoring user answers
200 and removes every row matching the id and author physically: all
surviving rows are unchanged members of the previous table, so no
deleted_at is ever written, and no row for the pair remains. -/
theorem deleteReview_physical (reviews : List Review) (user : AuthUser) (reviewId : Id)
    (hcust : jsIncludes user.roles (RoleArg.one "customer") = true)
    (hex : ∃ rv ∈ reviews, rv.id = reviewId ∧ rv.user_id = user.id) :
    (deleteReview reviews user reviewId).1 = 200 ∧
    (∀ rv ∈ (deleteReview reviews user reviewId).2, rv ∈ reviews) ∧
    (∀ rv ∈ (deleteReview reviews user reviewId).2,
      ¬(rv.id = reviewId ∧ rv.user_id = user.id)) := by
  have hany : (reviews.any fun rv => rv.id == reviewId && rv.user_id == user.id) = true := by
    rw [List.any_eq_true]
    obtain ⟨rv, hrv, h1, h2⟩ := hex
    exact ⟨rv, hrv, by simp [h1, h2]⟩
  have heval : deleteReview reviews user reviewId =
      (200, reviews.filter fun rv => !(rv.id == reviewId && rv.user_id == user.id)) := by
    unfold deleteReview
    rw [hcust, hany]
    simp
  rw [heval]
  refine ⟨rfl, ?_, ?_⟩
  · intro rv hrv
    exact (List.mem_filter.mp hrv).1
  · intro rv hrv hand
    have hk := (List.mem_filter.mp hrv).2
    simp only [Bool.not_eq_true', Bool.and_eq_false_iff] at hk
    rcases hk with hk | hk <;> simp only [beq_eq_false_iff_ne] at hk
    · exact hk hand.1
    · exact hk hand.2

/-- C7, witness: the amended theorem applied to the state of the
counterexample. -/
theorem deleteReview_physical_witness :
    jsIncludes demoCustomer.roles (RoleArg.one "customer") = true ∧
    (∃ rv ∈ [demoOwnReview], rv.id = 1 ∧ rv.user_id = demoCustomer.id) ∧
    ((deleteReview [demoOwnReview] demoCustomer 1).1 = 200 ∧
     (∀ rv ∈ (deleteReview [demoOwnReview] demoCustomer 1).2, rv ∈ [demoOwnReview]) ∧
     (∀ rv ∈ (deleteReview [demoOwnReview] demoCustomer 1).2,
        ¬(rv.id = 1 ∧ rv.user_id = demoCustomer.id))) :=
  ⟨by decide, by decide,
    deleteReview_physical [demoOwnReview] demoCustomer 1 (by decide) (by decide)⟩

/-- C1, counterexample to the claim as stated: a favorite of type branch
with all three reference fields null is handed straight to INSERT; the
single_favorite_reference CHECK aborts the statement and the catch branch
answers 500, a server error, where the claim demands a ValidationError,
a client error raised before any persistence attempt.  No row is inserted. -/
theorem postFavorites_violation_counterexample :
    postFavorites [] demoCustomer none none none (some "branch") 2 = (500, []) ∧
    isClientError 500 = false := by decide

/-- C1, amended: the exactly-one-reference rule for favorites and reviews
is enforced only by the storage layer's CHECK constraints, not by any
application-boundary validator: a create request whose reference fields
violate the rule reaches the INSERT, the constraint rejects it, the
handler answers 500 InternalError, and no row is inserted. -/
theorem polyRef_storage_enforced (favorites : List Favorite) (reviews : List Review)
    (user : AuthUser) (b m o : Option Id) (t : String) (rating : Option Int)
    (comment : Option String) (nid1 nid2 : Id)
    (hcust : jsIncludes user.roles (RoleArg.one "customer") = true)
    (ht : favoriteTypeCheck t = true)
    (hviol : favoriteRefCheck t b m o = false) :
    postFavorites favorites user b m o (some t) nid1 = (500, favorites) ∧
    postReviews reviews user b m o rating comment (some t) nid2 = (500, reviews) := by
  have hov : (t == "overall") = false := by
    rw [beq_eq_false_iff_ne]
    intro he
    subst he
    simp [favoriteTypeCheck] at ht
  have hrev : reviewRefCheck t b m o = false := by
    unfold reviewRefCheck
    unfold favoriteRefCheck at hviol
    simp only [Bool.or_eq_false_iff] at hviol ⊢
    exact ⟨hviol, by simp [hov]⟩
  constructor
  · simp [postFavorites, hcust, hviol]
  · cases rating <;> simp [postReviews, hcust, hrev]

/-- C1, witness: the amended theorem applied to a branch-typed body whose
branch_id is null, for both the favorite and the review handler. -/
theorem polyRef_storage_enforced_witness :
    jsIncludes demoCustomer.roles (RoleArg.one "customer") = true ∧
    favoriteTypeCheck "branch" = true ∧
    favoriteRefCheck "branch" none none none = false ∧
    (postFavorites [] demoCustomer none none none (some "branch") 2 = (500, []) ∧
     postReviews [] demoCustomer none none none (some 4) none (some "branch") 3 = (500, [])) :=
  ⟨by decide, by decide, by decide,
    polyRef_storage_enforced [] [] demoCustomer none none none "branch" (some 4) none 2 3
      (by decide) (by decide) (by decide)⟩

/-- C6, counterexample to the claim as stated: a review for branch 4 with
rating 6 reaches the INSERT; the rating CHECK aborts it and the catch
branch answers 500, a server error, where the claim demands a
ValidationError detected before any write.  No row is inserted. -/
theorem postReviews_rating_counterexample :
    postReviews [] demoCustomer (some 4) none none (some 6) none (some "branch") 3 = (500, []) ∧
    isClientError 500 = false := by decide

/-- C6, amended: a review-create whose rating lies outside 1 to 5 is
rejected by the storage layer's rating CHECK at the INSERT, surfaces as
500 InternalError, and inserts no row; the application performs no rating
validation of its own before the write attempt. -/
theorem postReviews_rating_storage (reviews : List Review) (user : AuthUser)
    (b m o : Option Id) (r : Int) (comment : Option String) (type : Option String)
    (newId : Id)
    (hcust : jsIncludes user.roles (RoleArg.one "customer") = true)
    (hr : r < 1 ∨ 5 < r) :
    postReviews reviews user b m o (some r) comment type newId = (500, reviews) := by
  have hrc : ratingCheck r = false := by
    simp only [ratingCheck, Bool.and_eq_false_iff, decide_eq_false_iff_not]
    omega
  cases type <;> simp [postReviews, hcust, hrc]

/-- C6, witness: the amended theorem applied to a branch review with
rating 6. -/
theorem postReviews_rating_storage_witness :
    jsIncludes demoCustomer.roles (RoleArg.one "customer") = true ∧
    ((6 : Int) < 1 ∨ (5 : Int) < 6) ∧
    postReviews [] demoCustomer (some 4) none none (some 6) none (some "branch") 3 = (500, []) :=
  ⟨by decide, by decide,
    postReviews_rating_storage [] demoCustomer (some 4) none none 6 none (some "branch") 3
      (by decide) (by decide)⟩

/-- C8: the public offer listing for a branch returns exactly the stored
offers whose branch_id equals the requested branch and whose end_date lies
strictly after now; in particular no offer whose end_date has passed or is
now appears. -/
theorem listOffers_active (offers : List Offer) (branchId : Id) (now : Nat) (o : Offer) :
    o ∈ listOffers offers branchId now ↔
      o ∈ offers ∧ o.branch_id = branchId ∧ now < o.end_date := by
  simp [listOffers, List.mem_filter, Bool.and_eq_true, beq_iff_eq, decide_eq_true_eq, and_assoc]

/-- C9, witness: the amended theorem applied to a one-item branch, the
search term burg and the price window 90 to 100. -/
theorem listMenu_filters_plain_witness :
    ((("burg" : String) == "") = false) ∧ likePlain ("burg".toList) = true ∧
    (demoItem ∈ listMenu [demoItem] 7 (some "burg") (some 90) (some 100) ↔
      demoItem ∈ [demoItem] ∧ demoItem.branch_id = 7 ∧
      (specCiSubstring "burg" demoItem.name = true ∨
        ∃ d, demoItem.description = some d ∧ specCiSubstring "burg" d = true) ∧
      (∀ p, (some 90 : Option Int) = some p → p ≤ demoItem.price) ∧
      (∀ p, (some 100 : Option Int) = some p → demoItem.price ≤ p)) :=
  ⟨by decide, by decide,
    listMenu_filters_plain [demoItem] 7 "burg" (some 90) (some 100) demoItem
      (by decide) (by decide)⟩

end Badr
